import Mathlib

/-!
# Retry controller (Go package `retry`): a shallow embedding

The package has three source files: `config.go` (the policy `Config`, its defaults and
`Validate`), `delay.go` (delay strategies) and `retry.go` (the controller `Retry` with
`New`, `SetConfig`, `OnRetry`, `SetRetryListener` and the helpers `callListener`,
`isTheLastRetry`, `isMatchListedErrors`).

Conventions of the embedding

* Go `int` and `time.Duration` are `Int`.  The only integer arithmetic of the package is
  `retryCount++` and `MaxRetry-1`, both evaluated inside the loop of `OnRetry`, where
  `0 <= retryCount < MaxRetry`, so neither can wrap around.
* The one `float64` of the package, in `ExponentialDelayFunc`, is held as an exact
  rational; its conversion to the 64-bit `int` is an `Option`, `none` out of range.
* A Go `error` interface value is a `GoError`; `GoError.nil` is the nil interface.
* A slice or function value that may be nil is an `Option` (`none` is nil).
* Stateful methods pass the controller explicitly; what `OnRetry` does to the outside
  world (calls of the operation, `time.Sleep`, calls of the listener) is recorded, in
  order, as a list of `Event`s.
* The operation handed to `OnRetry` is the stream of outcomes of its successive calls.
-/

namespace retry

/-! ## Go error values and `errors.Is` -/

/-- Values of the Go interface type `error`.  The universe holds the error types of the
package and of its tests, the two kinds of error built by `errors.New` and `fmt.Errorf`,
and the errors the Go runtime panics with.  Every one of these types is comparable and
none declares an `Is` method; only `*fmt.wrapError` declares `Unwrap`. -/
inductive GoError where
  /-- The nil interface value. -/
  | nil : GoError
  /-- The value `AnyError{error: inner}` (config.go, `type AnyError struct { error }`);
  `AnyError{}` is `AnyError nil`. -/
  | AnyError (inner : GoError) : GoError
  /-- The value `stringErrorType(s)` (retry_test.go, `type stringErrorType string`). -/
  | stringErrorType (s : String) : GoError
  /-- The value `structErrorType{}` (retry_test.go, `type structErrorType struct{}`). -/
  | structErrorType : GoError
  /-- The value `compositionErrorType{error: inner}` (retry_test.go). -/
  | compositionErrorType (inner : GoError) : GoError
  /-- A pointer, at address `addr`, to an error holding only a message: what `errors.New`
  and `fmt.Errorf` without a `%w` verb return. -/
  | errorString (addr : Nat) (msg : String) : GoError
  /-- A pointer, at address `addr`, to a `fmt.wrapError`: what `fmt.Errorf` with one `%w`
  verb returns; `err` is the wrapped error, returned by its `Unwrap` method. -/
  | wrapError (addr : Nat) (msg : String) (err : GoError) : GoError
  /-- The run-time error of an index expression out of range: index `x`, length `y`. -/
  | boundsError (x : Int) (y : Int) : GoError
  /-- A run-time error that is a message, as for a nil dereference. -/
  | runtimeErrorString (msg : String) : GoError
  deriving DecidableEq, Repr

/-- Values of the empty interface `interface{}`, as far as the package meets them: the
argument of a `panic` and the field `Info.Error`. -/
inductive GoValue where
  | nil : GoValue
  | ofError (e : GoError) : GoValue
  | ofString (s : String) : GoValue
  deriving DecidableEq, Repr

/-- Go's `==` on two `error` interface values: equal dynamic types and equal values.
Structs compare field by field, pointers by address. -/
def goEq : GoError → GoError → Bool
  | .nil, .nil => true
  | .AnyError a, .AnyError b => goEq a b
  | .stringErrorType s, .stringErrorType t => s == t
  | .structErrorType, .structErrorType => true
  | .compositionErrorType a, .compositionErrorType b => goEq a b
  | .errorString p _, .errorString q _ => p == q
  | .wrapError p _ _, .wrapError q _ _ => p == q
  | .boundsError x y, .boundsError u v => x == u && y == v
  | .runtimeErrorString s, .runtimeErrorString t => s == t
  | _, _ => false

/-- The result of `errors.Unwrap`: what the `Unwrap` method of the error returns, nil
when its type has none.  Embedding the interface `error` in a struct promotes only the
method `Error`, so `AnyError` and `compositionErrorType` do not unwrap. -/
def GoError.Unwrap : GoError → GoError
  | .wrapError _ _ err => err
  | _ => .nil

/-- The loop of `errors.Is` for a non-nil `err` and a target of comparable type:
`err == target` is tried on `err`, then on what it unwraps to, until the chain ends. -/
def errorsIs.is : GoError → GoError → Bool
  | .wrapError p m err, target =>
    goEq (.wrapError p m err) target || (err != .nil && errorsIs.is err target)
  | err, target => goEq err target

/-- The standard library's `errors.Is(err, target)`. -/
def errorsIs (err target : GoError) : Bool :=
  if err = .nil ∨ target = .nil then goEq err target else errorsIs.is err target

/-- The errors on the `Unwrap` chain of `err`, itself first; the chain of nil is empty. -/
def GoError.chain : GoError → List GoError
  | .nil => []
  | .wrapError p m err => .wrapError p m err :: GoError.chain err
  | err => [err]

/-- Go's `recover()`: the value of the panic in progress when it is called directly by
a deferred function, and nil otherwise ("the return value of recover is nil when the
goroutine is not panicking or recover was not called directly by a deferred function"). -/
def recover (calledByDeferred : Bool) (panicking : Option GoValue) : GoValue :=
  if calledByDeferred then panicking.getD .nil else .nil

/-! ## config.go -/

def MaxRetryForever : Int := 99999999
def MaxRetryThreeTimes : Int := 3
def MaxRetryFiveTimes : Int := 5
def MaxRetryTenTimes : Int := 10

/-- The function `DefaultAnyError`: the slice `[]error{AnyError{}}`. -/
def DefaultAnyError : Option (List GoError) := some [.AnyError .nil]

/-- The struct `Config`.  `DelayFunc` maps the attempt to a `time.Duration`, in
nanoseconds; `none` is the nil function, and `none` in `ByErrors` the nil slice. -/
structure Config where
  MaxRetry : Int
  DelayFunc : Option (Int → Int)
  ByErrors : Option (List GoError)

/-- The function `ConstantOneSecondDelayFunc` of delay.go: `1 * time.Second`. -/
def ConstantOneSecondDelayFunc (_attempt : Int) : Int := 1 * 1000000000

/-- The function `DefaultConfig`. -/
def DefaultConfig : Config :=
  { MaxRetry := MaxRetryForever
    DelayFunc := some ConstantOneSecondDelayFunc
    ByErrors := DefaultAnyError }

/-- The method `Config.Validate`: the error it returns is its message; `.ok ()` is the
nil error. -/
def Config.Validate (c : Config) : Except String Unit :=
  if c.ByErrors.isNone then
    .error "use DefaultAnyError instead of nil"
  else if c.MaxRetry = 0 then
    .error "MaxRetry must > 0"
  else if c.DelayFunc.isNone then
    .error "DelayFunc must not nil"
  else
    .ok ()

/-! ## retry.go -/

/-- The struct `Info` handed to the listener. -/
structure Info where
  Error : GoValue
  RetryCount : Int
  deriving DecidableEq, Repr

/-- The struct `Retry`.  A registered listener is known by a name; `none` is the nil
function. -/
structure Retry where
  config : Config
  retryCount : Int
  retryListener : Option Nat

/-- What a run does to the world outside the controller. -/
inductive Event where
  /-- One call `retryableFunc()`. -/
  | invoke : Event
  /-- One call `time.Sleep(d)`. -/
  | sleep (d : Int) : Event
  /-- One call `r.retryListener(info)` of the listener named `listener`. -/
  | notify (listener : Nat) (info : Info) : Event
  deriving DecidableEq, Repr

/-- How one call of the operation ends: it returns an error (maybe nil) or it panics. -/
inductive Outcome where
  | returns (err : GoError) : Outcome
  | panics (v : GoValue) : Outcome
  deriving DecidableEq, Repr

/-- The operation `retryableFunc`: the outcome of its call number `n` of the run,
counted from 0. -/
abbrev Operation := Nat → Outcome

/-- The end of a call of `OnRetry`: the controller afterwards, the events in order, and
the panic that left `OnRetry`, if one did (`none`: it returned to its caller). -/
structure Run where
  state : Retry
  trace : List Event
  panicked : Option GoValue

/-- The same run, after the events `evs`. -/
def Run.after (evs : List Event) (run : Run) : Run :=
  { run with trace := evs ++ run.trace }

/-- The function `New`. -/
def New : Retry :=
  { config := DefaultConfig, retryCount := 0, retryListener := none }

/-- The method `Retry.SetConfig`: the error returned and the controller afterwards. -/
def Retry.SetConfig (r : Retry) (c : Config) : Except String Unit × Retry :=
  match c.Validate with
  | .error err => (.error err, r)
  | .ok () => (.ok (), { r with config := c })

/-- The method `Retry.SetRetryListener`. -/
def Retry.SetRetryListener (r : Retry) (reporter : Option Nat) : Retry :=
  { r with retryListener := reporter }

/-- The method `Retry.callListener`: the events it causes. -/
def Retry.callListener (r : Retry) (pErr : GoValue) : List Event :=
  match r.retryListener with
  | none => []
  | some listener => [.notify listener { Error := pErr, RetryCount := r.retryCount }]

/-- The method `Retry.isTheLastRetry`. -/
def Retry.isTheLastRetry (r : Retry) : Bool :=
  decide (r.retryCount ≥ r.config.MaxRetry - 1)

/-- The method `Retry.isMatchListedErrors`.  The index expression `ByErrors[0]` panics
with a run-time error when the slice is nil or empty: that is the `.error` result. -/
def Retry.isMatchListedErrors (r : Retry) (err : GoError) : Except GoValue Bool :=
  match r.config.ByErrors.getD [] with
  | [] => .error (.ofError (.boundsError 0 0))
  | first :: rest =>
    if errorsIs first (.AnyError .nil) then
      .ok true
    else
      .ok ((first :: rest).any (fun testErr => errorsIs err testErr))

/-- The loop of `Retry.OnRetry`, from its condition on; `calls` counts the calls of the
operation made so far.  Each iteration that goes round uses one unit of `fuel`; `none`
says the fuel ran out with the loop condition still true.

A panic of the operation ends `OnRetry` there and then, and goes on to its caller:
`OnRetry` defers no function, and its `recover()` is an ordinary call in the body, made
after the operation has returned, when nothing is panicking. -/
def Retry.OnRetry.loop : Nat → Retry → Operation → Nat → Option Run
  | 0, r, _, _ =>
    if r.retryCount < r.config.MaxRetry then none
    else some { state := r, trace := [], panicked := none }
  | fuel + 1, r, retryableFunc, calls =>
    if r.retryCount < r.config.MaxRetry then
      -- call the func that need to be retried
      match retryableFunc calls with
      | .panics v => some { state := r, trace := [.invoke], panicked := some v }
      | .returns err =>
        -- do panic handler first
        let pErr := recover false none
        if pErr ≠ .nil then
          some { state := r, trace := .invoke :: r.callListener pErr, panicked := none }
        -- no error just exit
        else if err = .nil then
          some { state := r, trace := [.invoke], panicked := none }
        else
          match r.isMatchListedErrors err with
          | .error v => some { state := r, trace := [.invoke], panicked := some v }
          -- if no match any error listed then no need to retry
          | .ok false =>
            some { state := r, trace := .invoke :: r.callListener (.ofError err),
                   panicked := none }
          | .ok true =>
            -- for the last try, no need to wait anymore, just exit
            if r.isTheLastRetry then
              (Retry.OnRetry.loop fuel { r with retryCount := r.retryCount + 1 }
                retryableFunc (calls + 1)).map (Run.after [.invoke])
            else
              match r.config.DelayFunc with
              | none =>
                some { state := r, trace := [.invoke],
                       panicked := some (.ofError (.runtimeErrorString
                         "invalid memory address or nil pointer dereference")) }
              | some delayFunc =>
                (Retry.OnRetry.loop fuel { r with retryCount := r.retryCount + 1 }
                  retryableFunc (calls + 1)).map
                  (Run.after [.invoke, .sleep (delayFunc r.retryCount)])
    else
      some { state := r, trace := [], panicked := none }

/-- The method `Retry.OnRetry`: `r.retryCount = 0`, then the loop.  The loop adds one to
`retryCount` each time round and stops at `MaxRetry`, so `MaxRetry` units of fuel are
as many as it can use. -/
def Retry.OnRetry (r : Retry) (retryableFunc : Operation) : Option Run :=
  Retry.OnRetry.loop r.config.MaxRetry.toNat { r with retryCount := 0 } retryableFunc 0

/-! ## delay.go -/

/-- A value of Go's `float64`, as far as `ExponentialDelayFunc` meets them: a finite
value, held exactly, or `+Inf`. -/
inductive Float64 where
  | finite (q : ℚ) : Float64
  | posInf : Float64

/-- The expression `math.Exp2(float64(attempt))` of delay.go, for the `int` `attempt`.
The conversion to `float64` gives an integer of the same sign (`attempt` itself up to
`2^53` in size, the nearest float64 beyond).  On an integer `x` the library's `Exp2`
splits `x` into `k = x` and a remainder of 0, and returns `Ldexp(1, k)`: exactly `2^x`,
which a float64 holds for `-1074 <= x <= 1023`; above that it returns `+Inf`, below 0. -/
def mathExp2 (attempt : Int) : Float64 :=
  if attempt > 1023 then .posInf
  else if attempt < -1074 then .finite 0
  else .finite ((2 : ℚ) ^ attempt)

/-- The conversion `int(f)` of a `float64` to the 64-bit `int`: the fraction is dropped
(truncation towards zero).  `none` when the value does not fit an `int`, where Go leaves
the result to the implementation. -/
def intOfFloat64 : Float64 → Option Int
  | .finite q =>
    let t : Int := if 0 ≤ q then ⌊q⌋ else ⌈q⌉
    if -2 ^ 63 ≤ t ∧ t < 2 ^ 63 then some t else none
  | .posInf => none

/-- The function `ExponentialDelayFunc`: `time.Duration(int(math.Exp2(float64(attempt))))`,
in nanoseconds. -/
def ExponentialDelayFunc (attempt : Int) : Option Int :=
  intOfFloat64 (mathExp2 attempt)

/-! ## Reading a trace -/

/-- The number of calls of the operation in a trace. -/
def invocations (t : List Event) : Nat :=
  (t.filter (fun e => e matches .invoke)).length

/-- The durations slept in a trace, in order. -/
def sleeps : List Event → List Int
  | [] => []
  | .sleep d :: t => d :: sleeps t
  | _ :: t => sleeps t

/-- The values handed to the listener in a trace, in order. -/
def notifications : List Event → List Info
  | [] => []
  | .notify _ info :: t => info :: notifications t
  | _ :: t => notifications t

/-! ## Fixtures of retry_test.go -/

/-- The test helper `errorProducer.Run` of retry_test.go, made by
`newErrorProducer(counterBeforeSuccess, errorToProduce, _)`: it adds one to its counter and
returns `errorToProduce` while the counter is at most `counterBeforeSuccess`, then nil. -/
def newErrorProducer (counterBeforeSuccess : Nat) (errorToProduce : GoError) : Operation :=
  fun n => if n + 1 ≤ counterBeforeSuccess then .returns errorToProduce else .returns .nil

/-- The error `fmt.Errorf("direct error fmt")` of the tests, allocated at address 1. -/
def directError : GoError := .errorString 1 "direct error fmt"

/-- The controller of the tests: `New()`, then `SetConfig` with the given `MaxRetry` and
`ByErrors` and a delay of one second, then `SetRetryListener` of the listener 0. -/
def testRetry (maxRetry : Int) (byErrors : Option (List GoError)) : Retry :=
  ((New.SetConfig { MaxRetry := maxRetry, DelayFunc := some (fun _ => 1 * 1000000000),
                    ByErrors := byErrors }).2).SetRetryListener (some 0)

/-! ## The loop, one step at a time -/

theorem loop_exhausted (fuel : Nat) (r : Retry) (op : Operation) (calls : Nat)
    (h : ¬ r.retryCount < r.config.MaxRetry) :
    Retry.OnRetry.loop fuel r op calls = some { state := r, trace := [], panicked := none } := by
  cases fuel <;> simp [Retry.OnRetry.loop, h]

theorem loop_panics (fuel : Nat) (r : Retry) (op : Operation) (calls : Nat) (v : GoValue)
    (h : r.retryCount < r.config.MaxRetry) (hop : op calls = .panics v) :
    Retry.OnRetry.loop (fuel + 1) r op calls
      = some { state := r, trace := [.invoke], panicked := some v } := by
  simp [Retry.OnRetry.loop, h, hop]

theorem loop_success (fuel : Nat) (r : Retry) (op : Operation) (calls : Nat)
    (h : r.retryCount < r.config.MaxRetry) (hop : op calls = .returns .nil) :
    Retry.OnRetry.loop (fuel + 1) r op calls
      = some { state := r, trace := [.invoke], panicked := none } := by
  simp [Retry.OnRetry.loop, h, hop, recover]

theorem loop_nomatch (fuel : Nat) (r : Retry) (op : Operation) (calls : Nat) (e : GoError)
    (h : r.retryCount < r.config.MaxRetry) (hop : op calls = .returns e) (he : e ≠ .nil)
    (hm : r.isMatchListedErrors e = .ok false) :
    Retry.OnRetry.loop (fuel + 1) r op calls
      = some { state := r, trace := .invoke :: r.callListener (.ofError e), panicked := none } := by
  simp [Retry.OnRetry.loop, h, hop, recover, he, hm]

theorem loop_retry (fuel : Nat) (r : Retry) (op : Operation) (calls : Nat) (e : GoError)
    (f : Int → Int)
    (h : r.retryCount < r.config.MaxRetry) (hop : op calls = .returns e) (he : e ≠ .nil)
    (hm : r.isMatchListedErrors e = .ok true) (hf : r.config.DelayFunc = some f) :
    Retry.OnRetry.loop (fuel + 1) r op calls
      = (Retry.OnRetry.loop fuel { r with retryCount := r.retryCount + 1 } op (calls + 1)).map
          (Run.after (if r.retryCount ≥ r.config.MaxRetry - 1 then [.invoke]
            else [.invoke, .sleep (f r.retryCount)])) := by
  simp only [Retry.OnRetry.loop, h, hop, recover, he, hm, hf, Retry.isTheLastRetry]
  by_cases hl : r.retryCount ≥ r.config.MaxRetry - 1 <;> simp [hl]


theorem isMatchListedErrors_config (r s : Retry) (e : GoError) (h : r.config = s.config) :
    r.isMatchListedErrors e = s.isMatchListedErrors e := by
  simp [Retry.isMatchListedErrors, h]

theorem map_after_after (x : Option Run) (a b : List Event) :
    (x.map (Run.after a)).map (Run.after b) = x.map (Run.after (b ++ a)) := by
  cases x <;> simp [Run.after]

theorem loop_retries (op : Operation) (f : Int → Int) (j : Nat) :
    ∀ (fuel : Nat) (r : Retry) (calls : Nat),
      (∀ i, i < j → ∃ e, op (calls + i) = .returns e ∧ e ≠ .nil
        ∧ r.isMatchListedErrors e = .ok true) →
      r.retryCount + j < r.config.MaxRetry →
      r.config.DelayFunc = some f →
      Retry.OnRetry.loop (fuel + j) r op calls
        = (Retry.OnRetry.loop fuel { r with retryCount := r.retryCount + j } op (calls + j)).map
            (Run.after ((List.range j).flatMap
              (fun i => [Event.invoke, Event.sleep (f (r.retryCount + i))]))) := by
  induction j with
  | zero =>
    intro fuel r calls _ _ _
    cases h : Retry.OnRetry.loop fuel r op calls <;> simp [h, Run.after]
  | succ j ih =>
    intro fuel r calls hop hlt hf
    have hstep := ih (fuel + 1) r calls (fun i hi => hop i (by omega)) (by omega) hf
    obtain ⟨e, he1, he2, he3⟩ := hop j (by omega)
    have hm : ({ r with retryCount := r.retryCount + j } : Retry).isMatchListedErrors e
        = .ok true := by
      rw [← he3]; exact isMatchListedErrors_config _ _ _ rfl
    have hone := loop_retry fuel { r with retryCount := r.retryCount + j } op (calls + j) e f
      (by simp; omega) he1 he2 hm hf
    have hnl : ¬ (r.retryCount + (j : Int) ≥ r.config.MaxRetry - 1) := by omega
    simp only [hnl, if_false] at hone
    rw [show fuel + (j + 1) = fuel + 1 + j by omega, hstep, hone, map_after_after,
      List.range_succ, List.flatMap_append]
    simp [Int.add_assoc, Nat.add_assoc]


theorem validate_ok_iff (c : Config) :
    c.Validate = .ok () ↔ c.ByErrors ≠ none ∧ c.MaxRetry ≠ 0 ∧ c.DelayFunc ≠ none := by
  unfold Config.Validate
  cases hb : c.ByErrors <;> cases hd : c.DelayFunc <;> by_cases hm : c.MaxRetry = 0 <;>
    simp [hm]

theorem invocations_append (a b : List Event) :
    invocations (a ++ b) = invocations a + invocations b := by
  simp [invocations]

theorem sleeps_append (a b : List Event) : sleeps (a ++ b) = sleeps a ++ sleeps b := by
  induction a with
  | nil => rfl
  | cons e a ih => cases e <;> simp [sleeps, ih]

theorem notifications_append (a b : List Event) :
    notifications (a ++ b) = notifications a ++ notifications b := by
  induction a with
  | nil => rfl
  | cons e a ih => cases e <;> simp [notifications, ih]

theorem invocations_retries (g : Nat → Int) (l : List Nat) :
    invocations (l.flatMap (fun i => [Event.invoke, Event.sleep (g i)])) = l.length := by
  induction l with
  | nil => rfl
  | cons a l ih =>
    rw [List.flatMap_cons, invocations_append, ih]
    simp [invocations]; omega

theorem sleeps_retries (g : Nat → Int) (l : List Nat) :
    sleeps (l.flatMap (fun i => [Event.invoke, Event.sleep (g i)])) = l.map g := by
  induction l with
  | nil => rfl
  | cons a l ih =>
    rw [List.flatMap_cons, sleeps_append, ih]
    simp [sleeps]

theorem notifications_retries (g : Nat → Int) (l : List Nat) :
    notifications (l.flatMap (fun i => [Event.invoke, Event.sleep (g i)])) = [] := by
  induction l with
  | nil => rfl
  | cons a l ih =>
    rw [List.flatMap_cons, notifications_append, ih]
    simp [notifications]

/-- After `j` attempts that each end in a retry, with `j` below `MaxRetry`, the run is
the `j` pairs of a call and a sleep followed by whatever attempt `j` does. -/
theorem OnRetry_after_retries (r : Retry) (op : Operation) (f : Int → Int) (j : Nat)
    (hop : ∀ i, i < j → ∃ e, op i = .returns e ∧ e ≠ .nil
      ∧ r.isMatchListedErrors e = .ok true)
    (hj : (j : Int) < r.config.MaxRetry) (hf : r.config.DelayFunc = some f) :
    r.OnRetry op
      = (Retry.OnRetry.loop (r.config.MaxRetry.toNat - j) { r with retryCount := j } op j).map
          (Run.after ((List.range j).flatMap
            (fun (i : Nat) => [Event.invoke, Event.sleep (f (i : Int))]))) := by
  have h := loop_retries op f j (r.config.MaxRetry.toNat - j) { r with retryCount := 0 } 0
    (fun i hi => by simpa using hop i hi) (by simpa using hj) hf
  have hfuel : r.config.MaxRetry.toNat - j + j = r.config.MaxRetry.toNat := by omega
  simp only [hfuel, Nat.zero_add, Int.zero_add] at h
  exact h


/-- With `MaxRetry` zero or negative the loop is not entered. -/
theorem OnRetry_no_budget (r : Retry) (op : Operation) (h : r.config.MaxRetry ≤ 0) :
    r.OnRetry op = some { state := { r with retryCount := 0 }, trace := [], panicked := none } :=
  loop_exhausted _ { r with retryCount := 0 } op 0 (by simpa using h)

/-- `N` attempts that each end in a retry, `N = MaxRetry`: the budget is used up. -/
theorem OnRetry_exhausts (r : Retry) (op : Operation) (f : Int → Int) (N : Nat)
    (hN : 1 ≤ N) (hmax : r.config.MaxRetry = N) (hf : r.config.DelayFunc = some f)
    (hop : ∀ n, n < N → ∃ e, op n = .returns e ∧ e ≠ .nil
      ∧ r.isMatchListedErrors e = .ok true) :
    r.OnRetry op = some
      { state := { r with retryCount := N }
        trace := (List.range (N - 1)).flatMap
          (fun (i : Nat) => [Event.invoke, Event.sleep (f (i : Int))]) ++ [Event.invoke]
        panicked := none } := by
  have hpre := OnRetry_after_retries r op f (N - 1) (fun i hi => hop i (by omega))
    (by omega) hf
  obtain ⟨e, he1, he2, he3⟩ := hop (N - 1) (by omega)
  have hfuel : r.config.MaxRetry.toNat - (N - 1) = 0 + 1 := by omega
  have hlast := loop_retry 0 { r with retryCount := ((N - 1 : Nat) : Int) } op (N - 1) e f
    (by simp; omega) he1 he2 (by rw [← he3]; exact isMatchListedErrors_config _ _ _ rfl) hf
  have hend := loop_exhausted 0
    { r with retryCount := ((N - 1 : Nat) : Int) + 1 } op (N - 1 + 1) (by simp; omega)
  have hge : ((N - 1 : Nat) : Int) ≥ r.config.MaxRetry - 1 := by omega
  have hrc : ((N - 1 : Nat) : Int) + 1 = (N : Int) := by omega
  simp only [hge, if_true] at hlast
  rw [hfuel, hlast, hend] at hpre
  simp only [Option.map_some', Run.after, List.append_nil, hrc] at hpre
  exact hpre

/-- After `k < MaxRetry` attempts that each end in a retry, a call that returns nil ends
the run. -/
theorem OnRetry_succeeds (r : Retry) (op : Operation) (f : Int → Int) (k : Nat)
    (hk : (k : Int) < r.config.MaxRetry) (hf : r.config.DelayFunc = some f)
    (hop : ∀ n, n < k → ∃ e, op n = .returns e ∧ e ≠ .nil
      ∧ r.isMatchListedErrors e = .ok true)
    (hnil : op k = .returns .nil) :
    r.OnRetry op = some
      { state := { r with retryCount := k }
        trace := (List.range k).flatMap
          (fun (i : Nat) => [Event.invoke, Event.sleep (f (i : Int))]) ++ [Event.invoke]
        panicked := none } := by
  have hpre := OnRetry_after_retries r op f k hop hk hf
  obtain ⟨fuel, hfuel⟩ : ∃ fuel, r.config.MaxRetry.toNat - k = fuel + 1 :=
    ⟨r.config.MaxRetry.toNat - k - 1, by omega⟩
  have hlast := loop_success fuel { r with retryCount := (k : Int) } op k
    (by simpa using hk) hnil
  rw [hfuel, hlast] at hpre
  simpa only [Option.map_some', Run.after] using hpre

/-- After `j < MaxRetry` attempts that each end in a retry, a call that returns an error
outside `ByErrors` ends the run, through `callListener`. -/
theorem OnRetry_gives_up (r : Retry) (op : Operation) (f : Int → Int) (j : Nat)
    (err : GoError)
    (hj : (j : Int) < r.config.MaxRetry) (hf : r.config.DelayFunc = some f)
    (hop : ∀ n, n < j → ∃ e, op n = .returns e ∧ e ≠ .nil
      ∧ r.isMatchListedErrors e = .ok true)
    (herr : op j = .returns err) (hne : err ≠ .nil)
    (hno : r.isMatchListedErrors err = .ok false) :
    r.OnRetry op = some
      { state := { r with retryCount := j }
        trace := (List.range j).flatMap
            (fun (i : Nat) => [Event.invoke, Event.sleep (f (i : Int))])
          ++ Event.invoke
            :: ({ r with retryCount := j } : Retry).callListener (.ofError err)
        panicked := none } := by
  have hpre := OnRetry_after_retries r op f j hop hj hf
  obtain ⟨fuel, hfuel⟩ : ∃ fuel, r.config.MaxRetry.toNat - j = fuel + 1 :=
    ⟨r.config.MaxRetry.toNat - j - 1, by omega⟩
  have hlast := loop_nomatch fuel { r with retryCount := (j : Int) } op j err
    (by simpa using hj) herr hne (by rw [← hno]; exact isMatchListedErrors_config _ _ _ rfl)
  rw [hfuel, hlast] at hpre
  simpa only [Option.map_some', Run.after] using hpre

/-- After `j < MaxRetry` attempts that each end in a retry, a call that panics ends
`OnRetry` with that panic, and nothing else happens. -/
theorem OnRetry_panics (r : Retry) (op : Operation) (f : Int → Int) (j : Nat)
    (v : GoValue)
    (hj : (j : Int) < r.config.MaxRetry) (hf : r.config.DelayFunc = some f)
    (hop : ∀ n, n < j → ∃ e, op n = .returns e ∧ e ≠ .nil
      ∧ r.isMatchListedErrors e = .ok true)
    (hpanic : op j = .panics v) :
    r.OnRetry op = some
      { state := { r with retryCount := j }
        trace := (List.range j).flatMap
          (fun (i : Nat) => [Event.invoke, Event.sleep (f (i : Int))]) ++ [Event.invoke]
        panicked := some v } := by
  have hpre := OnRetry_after_retries r op f j hop hj hf
  obtain ⟨fuel, hfuel⟩ : ∃ fuel, r.config.MaxRetry.toNat - j = fuel + 1 :=
    ⟨r.config.MaxRetry.toNat - j - 1, by omega⟩
  have hlast := loop_panics fuel { r with retryCount := (j : Int) } op j v
    (by simpa using hj) hpanic
  rw [hfuel, hlast] at hpre
  simpa only [Option.map_some', Run.after] using hpre

theorem invocations_retries_then (g : Nat → Int) (n : Nat) (tail : List Event) :
    invocations ((List.range n).flatMap (fun i => [Event.invoke, Event.sleep (g i)]) ++ tail)
      = n + invocations tail := by
  rw [invocations_append, invocations_retries, List.length_range]

theorem sleeps_retries_then (g : Nat → Int) (n : Nat) (tail : List Event) :
    sleeps ((List.range n).flatMap (fun i => [Event.invoke, Event.sleep (g i)]) ++ tail)
      = (List.range n).map g ++ sleeps tail := by
  rw [sleeps_append, sleeps_retries]

theorem notifications_retries_then (g : Nat → Int) (n : Nat) (tail : List Event) :
    notifications
        ((List.range n).flatMap (fun i => [Event.invoke, Event.sleep (g i)]) ++ tail)
      = notifications tail := by
  rw [notifications_append, notifications_retries, List.nil_append]

/-- Enough fuel: the loop ends with a result whenever the fuel covers the attempts that
remain, `MaxRetry - retryCount`. -/
theorem loop_isSome (op : Operation) (fuel : Nat) :
    ∀ (r : Retry) (calls : Nat), (r.config.MaxRetry - r.retryCount).toNat ≤ fuel →
      (Retry.OnRetry.loop fuel r op calls).isSome = true := by
  induction fuel with
  | zero =>
    intro r calls h
    have hlt : ¬ r.retryCount < r.config.MaxRetry := by omega
    simp [Retry.OnRetry.loop, hlt]
  | succ fuel ih =>
    intro r calls h
    have hnext := ih { r with retryCount := r.retryCount + 1 } (calls + 1)
      (by simp only; omega)
    by_cases hlt : r.retryCount < r.config.MaxRetry
    · cases hop : op calls with
      | panics v => simp [Retry.OnRetry.loop, hlt, hop]
      | returns err =>
        by_cases he : err = .nil
        · simp [Retry.OnRetry.loop, hlt, hop, recover, he]
        · cases hm : r.isMatchListedErrors err with
          | error v => simp [Retry.OnRetry.loop, hlt, hop, recover, he, hm]
          | ok b =>
            cases b with
            | false => simp [Retry.OnRetry.loop, hlt, hop, recover, he, hm]
            | true =>
              by_cases hl : r.isTheLastRetry = true
              · simpa [Retry.OnRetry.loop, hlt, hop, recover, he, hm, hl] using hnext
              · cases hd : r.config.DelayFunc with
                | none => simp [Retry.OnRetry.loop, hlt, hop, recover, he, hm, hl, hd]
                | some f =>
                  simpa [Retry.OnRetry.loop, hlt, hop, recover, he, hm, hl, hd] using hnext
    · simp [Retry.OnRetry.loop, hlt]

/-- The method `OnRetry` always ends with a result: its fuel is never short. -/
theorem OnRetry_isSome (r : Retry) (op : Operation) : (r.OnRetry op).isSome = true :=
  loop_isSome op _ { r with retryCount := 0 } 0 (by simp)

/-! ## Equality of errors and the chain of an error -/

theorem goEq_nil_right (x : GoError) (hx : x ≠ .nil) : goEq x .nil = false := by
  cases x <;> simp_all [goEq]

theorem chain_any_nil (e : GoError) : e.chain.any (fun x => goEq x .nil) = false := by
  induction e <;> simp_all [GoError.chain, goEq]

theorem errorsIs_is_eq_any (e c : GoError) (he : e ≠ .nil) :
    errorsIs.is e c = e.chain.any (fun x => goEq x c) := by
  induction e with
  | wrapError p m err ih =>
    by_cases hn : err = .nil
    · subst hn; simp [errorsIs.is, GoError.chain]
    · have hb : (err != GoError.nil) = true := by simpa using hn
      simp [errorsIs.is, GoError.chain, ih hn, hb]
  | nil => exact absurd rfl he
  | _ => simp [errorsIs.is, GoError.chain]

/-- On a non-nil error, `errors.Is(err, target)` says whether `target` is `==` to an error
on the `Unwrap` chain of `err`. -/
theorem errorsIs_eq_any (e c : GoError) (he : e ≠ .nil) :
    errorsIs e c = e.chain.any (fun x => goEq x c) := by
  by_cases hc : c = .nil
  · subst hc; simp [errorsIs, goEq_nil_right e he, chain_any_nil]
  · simp [errorsIs, he, hc, errorsIs_is_eq_any e c he]

/-- The loop of `errors.Is`, as the library writes it: compare, then go on with what
`Unwrap` returns unless that is nil. -/
theorem errorsIs_is_unfold (e c : GoError) :
    errorsIs.is e c = (goEq e c || (e.Unwrap != .nil && errorsIs.is e.Unwrap c)) := by
  cases e <;> simp [errorsIs.is, GoError.Unwrap]

/-- The chain of a non-nil error is the error, then the chain of what it unwraps to. -/
theorem chain_eq_cons_Unwrap (e : GoError) (he : e ≠ .nil) :
    e.chain = e :: e.Unwrap.chain := by
  cases e <;> simp_all [GoError.chain, GoError.Unwrap]

theorem goEq_nil_iff (x : GoError) : goEq x .nil = true ↔ x = .nil := by
  cases x <;> simp [goEq]

/-- The wildcard test of `isMatchListedErrors` succeeds on an entry exactly when
`AnyError{}` is on its chain: the entry is `AnyError{}` or wraps it. -/
theorem errorsIs_wildcard_iff (first : GoError) :
    errorsIs first (.AnyError .nil) = true ↔ GoError.AnyError .nil ∈ first.chain := by
  have hany : ∀ x : GoError, goEq x (.AnyError .nil) = true ↔ x = .AnyError .nil := by
    intro x
    cases x <;> simp [goEq, goEq_nil_iff]
  by_cases hn : first = .nil
  · subst hn; simp [errorsIs, goEq, GoError.chain]
  · rw [errorsIs_eq_any first _ hn, List.any_eq_true]
    constructor
    · rintro ⟨x, hx, hxe⟩
      exact ((hany x).1 hxe) ▸ hx
    · intro h
      exact ⟨_, h, (hany _).2 rfl⟩

theorem any_perm {α : Type} (p : α → Bool) {l₁ l₂ : List α} (h : l₁.Perm l₂) :
    l₁.any p = l₂.any p := by
  rw [Bool.eq_iff_iff]
  simp only [List.any_eq_true]
  exact ⟨fun ⟨x, hx, hp⟩ => ⟨x, h.mem_iff.1 hx, hp⟩, fun ⟨x, hx, hp⟩ => ⟨x, h.mem_iff.2 hx, hp⟩⟩

theorem isMatchListedErrors_wildcard (r : Retry) (first : GoError) (rest : List GoError)
    (hb : r.config.ByErrors = some (first :: rest))
    (hw : errorsIs first (.AnyError .nil) = true) (e : GoError) :
    r.isMatchListedErrors e = .ok true := by
  simp [Retry.isMatchListedErrors, hb, hw]

theorem isMatchListedErrors_listed (r : Retry) (first : GoError) (rest : List GoError)
    (hb : r.config.ByErrors = some (first :: rest))
    (hw : errorsIs first (.AnyError .nil) = false) (e : GoError) :
    r.isMatchListedErrors e
      = .ok ((first :: rest).any (fun testErr => errorsIs e testErr)) := by
  simp [Retry.isMatchListedErrors, hb, hw]

/-! ## The execution loop -/

/-- C1: under an accepted config with `MaxRetry = N >= 1`, when each of the first `N` calls
of the operation returns a non-nil error that matches `ByErrors`, `OnRetry` returns after
exactly `N` calls and `N-1` sleeps: a sleep follows each of the first `N-1` calls, none
follows the last, and the listener is not called. -/
theorem OnRetry_retryable_every_time (r : Retry) (op : Operation) (N : Nat)
    (hN : 1 ≤ N) (hmax : r.config.MaxRetry = N) (hv : r.config.Validate = .ok ())
    (hop : ∀ n, n < N → ∃ e, op n = .returns e ∧ e ≠ .nil
      ∧ r.isMatchListedErrors e = .ok true) :
    ∃ f run, r.config.DelayFunc = some f ∧ r.OnRetry op = some run
      ∧ run.panicked = none
      ∧ run.trace = (List.range (N - 1)).flatMap
          (fun (i : Nat) => [Event.invoke, Event.sleep (f (i : Int))]) ++ [Event.invoke]
      ∧ invocations run.trace = N
      ∧ sleeps run.trace = (List.range (N - 1)).map (fun (i : Nat) => f (i : Int))
      ∧ (sleeps run.trace).length = N - 1
      ∧ notifications run.trace = [] := by
  obtain ⟨-, -, hd⟩ := (validate_ok_iff r.config).1 hv
  obtain ⟨f, hf⟩ := Option.ne_none_iff_exists'.1 hd
  refine ⟨f, _, hf, OnRetry_exhausts r op f N hN hmax hf hop, rfl, rfl, ?_, ?_, ?_, ?_⟩
  · rw [invocations_retries_then]; simp only [invocations, List.filter, List.length]; omega
  · rw [sleeps_retries_then]; simp [sleeps]
  · rw [sleeps_retries_then]; simp [sleeps]
  · rw [notifications_retries_then]; simp [notifications]

/-- C1 at `TestRetry_002`: `MaxRetry` 3, wildcard, an operation that fails five times. -/
theorem OnRetry_retryable_every_time_witness :
    (1 ≤ 3 ∧ (testRetry 3 DefaultAnyError).config.MaxRetry = (3 : Nat)
      ∧ (testRetry 3 DefaultAnyError).config.Validate = .ok ())
    ∧ ∃ f run, (testRetry 3 DefaultAnyError).config.DelayFunc = some f
      ∧ (testRetry 3 DefaultAnyError).OnRetry (newErrorProducer 5 directError) = some run
      ∧ run.panicked = none
      ∧ run.trace = (List.range (3 - 1)).flatMap
          (fun (i : Nat) => [Event.invoke, Event.sleep (f (i : Int))]) ++ [Event.invoke]
      ∧ invocations run.trace = 3
      ∧ sleeps run.trace = (List.range (3 - 1)).map (fun (i : Nat) => f (i : Int))
      ∧ (sleeps run.trace).length = 3 - 1
      ∧ notifications run.trace = [] :=
  ⟨⟨by decide, rfl, rfl⟩,
   OnRetry_retryable_every_time (testRetry 3 DefaultAnyError) (newErrorProducer 5 directError) 3
    (by decide) rfl rfl
    (fun n hn => ⟨directError, by simp [newErrorProducer]; omega, by decide, rfl⟩)⟩

/-- C2: under an accepted config with `MaxRetry = N` and `0 <= k < N` (so `N >= 1`), when the first `k`
calls of the operation return non-nil errors that match `ByErrors` and call `k+1` returns
nil, `OnRetry` returns after exactly `k+1` calls and `k` sleeps, and the listener is never
called. -/
theorem OnRetry_success_after_failures (r : Retry) (op : Operation) (N k : Nat)
    (hmax : r.config.MaxRetry = N) (hv : r.config.Validate = .ok ())
    (hk : k < N)
    (hop : ∀ n, n < k → ∃ e, op n = .returns e ∧ e ≠ .nil
      ∧ r.isMatchListedErrors e = .ok true)
    (hnil : op k = .returns .nil) :
    ∃ f run, r.config.DelayFunc = some f ∧ r.OnRetry op = some run
      ∧ run.panicked = none
      ∧ run.trace = (List.range k).flatMap
          (fun (i : Nat) => [Event.invoke, Event.sleep (f (i : Int))]) ++ [Event.invoke]
      ∧ invocations run.trace = k + 1
      ∧ sleeps run.trace = (List.range k).map (fun (i : Nat) => f (i : Int))
      ∧ (sleeps run.trace).length = k
      ∧ notifications run.trace = [] := by
  obtain ⟨-, -, hd⟩ := (validate_ok_iff r.config).1 hv
  obtain ⟨f, hf⟩ := Option.ne_none_iff_exists'.1 hd
  have hkN : (k : Int) < r.config.MaxRetry := by omega
  refine ⟨f, _, hf, OnRetry_succeeds r op f k hkN hf hop hnil, rfl, rfl, ?_, ?_, ?_, ?_⟩
  · rw [invocations_retries_then]; simp only [invocations, List.filter, List.length]
  · rw [sleeps_retries_then]; simp [sleeps]
  · rw [sleeps_retries_then]; simp [sleeps]
  · rw [notifications_retries_then]; simp [notifications]

/-- C2 at `TestRetry_004`: `MaxRetry` 10, wildcard, three failures and then success give
four calls, three sleeps and no notification. -/
theorem OnRetry_success_after_failures_witness :
    ((testRetry 10 DefaultAnyError).config.MaxRetry = (10 : Nat)
      ∧ (testRetry 10 DefaultAnyError).config.Validate = .ok () ∧ 3 < 10
      ∧ newErrorProducer 3 directError 3 = .returns .nil)
    ∧ ∃ f run, (testRetry 10 DefaultAnyError).config.DelayFunc = some f
      ∧ (testRetry 10 DefaultAnyError).OnRetry (newErrorProducer 3 directError) = some run
      ∧ run.panicked = none
      ∧ run.trace = (List.range 3).flatMap
          (fun (i : Nat) => [Event.invoke, Event.sleep (f (i : Int))]) ++ [Event.invoke]
      ∧ invocations run.trace = 3 + 1
      ∧ sleeps run.trace = (List.range 3).map (fun (i : Nat) => f (i : Int))
      ∧ (sleeps run.trace).length = 3
      ∧ notifications run.trace = [] :=
  ⟨⟨rfl, rfl, by decide, rfl⟩,
   OnRetry_success_after_failures (testRetry 10 DefaultAnyError)
    (newErrorProducer 3 directError) 10 3 rfl rfl (by decide)
    (fun n hn => ⟨directError, by simp [newErrorProducer]; omega, by decide, rfl⟩) rfl⟩

/-- Giving up, where the classification returns: under an accepted config with a
registered listener, when the first `j < MaxRetry` calls of the operation return non-nil
errors for which `isMatchListedErrors` returns true and the next call returns a non-nil
error for which it returns false, `OnRetry` returns after exactly `j+1` calls and `j`
sleeps, and calls the listener exactly once, with that error and `RetryCount = j`. This
needs a non-empty `ByErrors`: on the empty one `isMatchListedErrors` returns nothing. -/
theorem OnRetry_stops_at_unlisted_error (r : Retry) (op : Operation) (j listener : Nat)
    (err : GoError)
    (hv : r.config.Validate = .ok ()) (hj : (j : Int) < r.config.MaxRetry)
    (hl : r.retryListener = some listener)
    (hop : ∀ n, n < j → ∃ e, op n = .returns e ∧ e ≠ .nil
      ∧ r.isMatchListedErrors e = .ok true)
    (herr : op j = .returns err) (hne : err ≠ .nil)
    (hno : r.isMatchListedErrors err = .ok false) :
    ∃ f run, r.config.DelayFunc = some f ∧ r.OnRetry op = some run
      ∧ run.panicked = none
      ∧ run.trace = (List.range j).flatMap
          (fun (i : Nat) => [Event.invoke, Event.sleep (f (i : Int))])
          ++ [Event.invoke, Event.notify listener { Error := .ofError err, RetryCount := j }]
      ∧ invocations run.trace = j + 1
      ∧ (sleeps run.trace).length = j
      ∧ notifications run.trace = [{ Error := .ofError err, RetryCount := j }] := by
  obtain ⟨-, -, hd⟩ := (validate_ok_iff r.config).1 hv
  obtain ⟨f, hf⟩ := Option.ne_none_iff_exists'.1 hd
  have hrun := OnRetry_gives_up r op f j err hj hf hop herr hne hno
  simp only [Retry.callListener, hl] at hrun
  refine ⟨f, _, hf, hrun, rfl, rfl, ?_, ?_, ?_⟩
  · rw [invocations_retries_then]; simp only [invocations, List.filter, List.length]
  · rw [sleeps_retries_then]; simp [sleeps]
  · rw [notifications_retries_then]; simp [notifications]

/-- Giving up at `TestRetry_003`: `MaxRetry` 3, `ByErrors` the one classifier
`stringErrorType("")`, an operation returning a `fmt.Errorf` error: one call, no sleep, one
notification with `RetryCount` 0. -/
theorem OnRetry_stops_at_unlisted_error_witness :
    ((testRetry 3 (some [.stringErrorType ""])).config.Validate = .ok ()
      ∧ ((0 : Nat) : Int) < (testRetry 3 (some [.stringErrorType ""])).config.MaxRetry
      ∧ (testRetry 3 (some [.stringErrorType ""])).retryListener = some 0
      ∧ newErrorProducer 3 directError 0 = .returns directError
      ∧ directError ≠ .nil
      ∧ (testRetry 3 (some [.stringErrorType ""])).isMatchListedErrors directError
          = .ok false)
    ∧ ∃ f run, (testRetry 3 (some [.stringErrorType ""])).config.DelayFunc = some f
      ∧ (testRetry 3 (some [.stringErrorType ""])).OnRetry (newErrorProducer 3 directError)
          = some run
      ∧ run.panicked = none
      ∧ run.trace = (List.range 0).flatMap
          (fun (i : Nat) => [Event.invoke, Event.sleep (f (i : Int))])
          ++ [Event.invoke,
              Event.notify 0 { Error := .ofError directError, RetryCount := (0 : Nat) }]
      ∧ invocations run.trace = 0 + 1
      ∧ (sleeps run.trace).length = 0
      ∧ notifications run.trace = [{ Error := .ofError directError, RetryCount := (0 : Nat) }] :=
  ⟨⟨rfl, by decide, rfl, rfl, by decide, rfl⟩,
   OnRetry_stops_at_unlisted_error (testRetry 3 (some [.stringErrorType ""]))
    (newErrorProducer 3 directError) 0 0 directError rfl (by decide) rfl
    (fun n hn => absurd hn (Nat.not_lt_zero n)) rfl (by decide) rfl⟩

/-- C4, at the failing input: with `MaxRetry` 3, the wildcard and listener 0 registered,
an operation that panics with "boom" on its first call. `OnRetry` makes that one call and
is left by the panic: the listener is not called and the panic reaches the caller. -/
theorem OnRetry_panic_reaches_caller :
    ((testRetry 3 DefaultAnyError).OnRetry (fun _ => .panics (.ofString "boom"))).map
        (fun run => (run.trace, run.panicked))
      = some ([Event.invoke], some (.ofString "boom"))
    ∧ recover false (some (.ofString "boom")) = .nil := by
  constructor <;> rfl

/-! ## Validation and assignment of the policy -/

/-- C5: `Validate` returns nil exactly when `ByErrors` is not nil, `MaxRetry` is not 0 and
`DelayFunc` is not nil; nothing else about the fields is looked at. -/
theorem Validate_accepts_iff (c : Config) :
    c.Validate = .ok () ↔ c.ByErrors ≠ none ∧ c.MaxRetry ≠ 0 ∧ c.DelayFunc ≠ none :=
  validate_ok_iff c

/-- C6: `SetConfig` is all or nothing. A config with nil `ByErrors`, `MaxRetry = 0` or nil
`DelayFunc` gets an error back and leaves the whole controller as it was; any other config
gets nil back and becomes the controller's config, the other fields staying as they were. -/
theorem SetConfig_atomic (r : Retry) (c : Config) :
    ((c.ByErrors = none ∨ c.MaxRetry = 0 ∨ c.DelayFunc = none) →
      (∃ msg, (r.SetConfig c).1 = .error msg) ∧ (r.SetConfig c).2 = r)
    ∧ (¬ (c.ByErrors = none ∨ c.MaxRetry = 0 ∨ c.DelayFunc = none) →
      (r.SetConfig c).1 = .ok () ∧ (r.SetConfig c).2 = { r with config := c }) := by
  constructor
  · intro h
    have hv : c.Validate ≠ .ok () := by
      rw [Ne, validate_ok_iff]; tauto
    unfold Retry.SetConfig
    cases hc : c.Validate with
    | error msg => exact ⟨⟨msg, rfl⟩, rfl⟩
    | ok u => exact absurd hc hv
  · intro h
    have hv : c.Validate = .ok () := by
      rw [validate_ok_iff]; tauto
    simp [Retry.SetConfig, hv]

/-- C7, at the failing input: `SetConfig` on `New()` accepts the config with
`MaxRetry = -1` and the empty, non-nil `ByErrors`, so the controller then holds a policy
with `MaxRetry` not above 0 and no classifier at all. -/
theorem SetConfig_breaks_invariant :
    (New.SetConfig { MaxRetry := -1, DelayFunc := some ConstantOneSecondDelayFunc,
                     ByErrors := some [] }).1 = .ok ()
    ∧ (New.SetConfig { MaxRetry := -1, DelayFunc := some ConstantOneSecondDelayFunc,
                       ByErrors := some [] }).2.config.MaxRetry = -1
    ∧ (New.SetConfig { MaxRetry := -1, DelayFunc := some ConstantOneSecondDelayFunc,
                       ByErrors := some [] }).2.config.ByErrors = some []
    ∧ (Config.Validate { MaxRetry := -1, DelayFunc := some ConstantOneSecondDelayFunc,
                         ByErrors := some [] } = .ok ()
        ∧ Config.Validate { MaxRetry := 0, DelayFunc := some ConstantOneSecondDelayFunc,
                            ByErrors := some [] } = .error "MaxRetry must > 0") := by
  refine ⟨rfl, rfl, rfl, rfl, rfl⟩

/-! ## Classification of errors -/

/-- C8: with `ByErrors = DefaultAnyError()`, `isMatchListedErrors` is true of every error,
whatever its type, value or chain. Hence, for an operation that does not panic, every
returned error is followed by another call as long as fewer than `MaxRetry` calls were
made, at most `MaxRetry` calls are made, and the listener is never called. -/
theorem wildcard_matches_every_error (r : Retry)
    (hb : r.config.ByErrors = DefaultAnyError) :
    (∀ e : GoError, r.isMatchListedErrors e = .ok true)
    ∧ ∀ (op : Operation) (f : Int → Int), r.config.DelayFunc = some f →
        (∀ n, ∃ e, op n = .returns e) →
        ∃ run, r.OnRetry op = some run ∧ run.panicked = none
          ∧ notifications run.trace = []
          ∧ invocations run.trace ≤ r.config.MaxRetry.toNat
          ∧ ∀ n : Nat, (n : Int) < r.config.MaxRetry →
              (∀ i, i < n → op i ≠ .returns .nil) → n + 1 ≤ invocations run.trace := by
  have hall : ∀ e : GoError, r.isMatchListedErrors e = .ok true := fun e =>
    isMatchListedErrors_wildcard r (.AnyError .nil) [] hb rfl e
  refine ⟨hall, ?_⟩
  intro op f hf hret
  have hretry : ∀ n, op n ≠ .returns .nil →
      ∃ e, op n = .returns e ∧ e ≠ .nil ∧ r.isMatchListedErrors e = .ok true := by
    intro n hn
    obtain ⟨e, he⟩ := hret n
    exact ⟨e, he, fun h => hn (h ▸ he), hall e⟩
  by_cases hpos : r.config.MaxRetry ≤ 0
  · refine ⟨_, OnRetry_no_budget r op hpos, rfl, rfl, Nat.zero_le _, ?_⟩
    intro n hn _
    omega
  · by_cases hex : ∃ k : Nat, (k : Int) < r.config.MaxRetry ∧ op k = .returns .nil
    · have hk := Nat.find_spec hex
      have hmin : ∀ n, n < Nat.find hex → op n ≠ .returns .nil := fun n hn hnil =>
        Nat.find_min hex hn ⟨by omega, hnil⟩
      refine ⟨_, OnRetry_succeeds r op f (Nat.find hex) hk.1 hf
        (fun n hn => hretry n (hmin n hn)) hk.2, rfl, ?_, ?_, ?_⟩
      · rw [notifications_retries_then]; simp [notifications]
      · rw [invocations_retries_then]; simp only [invocations, List.filter, List.length]
        omega
      · intro n _ hn
        rw [invocations_retries_then]; simp only [invocations, List.filter, List.length]
        have : ¬ Nat.find hex < n := fun hlt => hn _ hlt hk.2
        omega
    · have hnone : ∀ n, n < r.config.MaxRetry.toNat → op n ≠ .returns .nil :=
        fun n hn hnil => hex ⟨n, by omega, hnil⟩
      refine ⟨_, OnRetry_exhausts r op f r.config.MaxRetry.toNat (by omega) (by omega) hf
        (fun n hn => hretry n (hnone n hn)), rfl, ?_, ?_, ?_⟩
      · rw [notifications_retries_then]; simp [notifications]
      · rw [invocations_retries_then]; simp only [invocations, List.filter, List.length]
        omega
      · intro n hn _
        rw [invocations_retries_then]; simp only [invocations, List.filter, List.length]
        omega

/-- C8 at the controller of `TestRetry_002`, whose `ByErrors` is `DefaultAnyError()`. -/
theorem wildcard_matches_every_error_witness :
    (testRetry 3 DefaultAnyError).config.ByErrors = DefaultAnyError
    ∧ (∀ e : GoError, (testRetry 3 DefaultAnyError).isMatchListedErrors e = .ok true)
    ∧ ∀ (op : Operation) (f : Int → Int),
        (testRetry 3 DefaultAnyError).config.DelayFunc = some f →
        (∀ n, ∃ e, op n = .returns e) →
        ∃ run, (testRetry 3 DefaultAnyError).OnRetry op = some run ∧ run.panicked = none
          ∧ notifications run.trace = []
          ∧ invocations run.trace ≤ (testRetry 3 DefaultAnyError).config.MaxRetry.toNat
          ∧ ∀ n : Nat, (n : Int) < (testRetry 3 DefaultAnyError).config.MaxRetry →
              (∀ i, i < n → op i ≠ .returns .nil) → n + 1 ≤ invocations run.trace :=
  ⟨rfl, wildcard_matches_every_error (testRetry 3 DefaultAnyError) rfl⟩

/-- C9: when `ByErrors` is a non-empty list whose first entry is not the wildcard (the
test `errors.Is(ByErrors[0], AnyError{})` of the code fails: the entry is not `AnyError{}`
and does not wrap it), `isMatchListedErrors` of a non-nil error `e` returns, and is true
exactly when some classifier of the list, at any position, is `==` to `e` or to an error
on the `Unwrap` chain of `e`. -/
theorem isMatchListedErrors_iff_listed (r : Retry) (first : GoError)
    (rest : List GoError) (e : GoError)
    (hb : r.config.ByErrors = some (first :: rest))
    (hw : errorsIs first (.AnyError .nil) = false) (he : e ≠ .nil) :
    ∃ b, r.isMatchListedErrors e = .ok b
      ∧ (b = true ↔ ∃ c ∈ first :: rest, ∃ x ∈ e.chain, goEq x c = true) := by
  refine ⟨_, isMatchListedErrors_listed r first rest hb hw e, ?_⟩
  rw [List.any_eq_true]
  constructor
  · rintro ⟨c, hc, his⟩
    rw [errorsIs_eq_any e c he, List.any_eq_true] at his
    exact ⟨c, hc, his⟩
  · rintro ⟨c, hc, his⟩
    refine ⟨c, hc, ?_⟩
    rw [errorsIs_eq_any e c he, List.any_eq_true]
    exact his

/-- C9 at `TestRetry_006`: `ByErrors = [stringErrorType(""), compositionErrorType{}]` and
the error `compositionErrorType{}`, equal to the second classifier: it matches. -/
theorem isMatchListedErrors_iff_listed_witness :
    ((testRetry 10 (some [.stringErrorType "", .compositionErrorType .nil])).config.ByErrors
        = some [.stringErrorType "", .compositionErrorType .nil]
      ∧ errorsIs (.stringErrorType "") (.AnyError .nil) = false
      ∧ GoError.compositionErrorType .nil ≠ .nil)
    ∧ (testRetry 10 (some [.stringErrorType "", .compositionErrorType .nil])).isMatchListedErrors
        (.compositionErrorType .nil) = .ok true
    ∧ ∃ b, (testRetry 10
          (some [.stringErrorType "", .compositionErrorType .nil])).isMatchListedErrors
          (.compositionErrorType .nil) = .ok b
      ∧ (b = true ↔ ∃ c ∈ [GoError.stringErrorType "", .compositionErrorType .nil],
          ∃ x ∈ (GoError.compositionErrorType .nil).chain, goEq x c = true) :=
  ⟨⟨rfl, rfl, by decide⟩, rfl,
   isMatchListedErrors_iff_listed
    (testRetry 10 (some [.stringErrorType "", .compositionErrorType .nil]))
    (.stringErrorType "") [.compositionErrorType .nil] (.compositionErrorType .nil)
    rfl rfl (by decide)⟩

/-- C10, the counterexample: `[AnyError{}, stringErrorType("")]` and
`[stringErrorType(""), AnyError{}]` are permutations of each other, and the non-nil error
`structErrorType{}` matches under the first and does not match under the second. -/
theorem isMatchListedErrors_order_matters :
    [GoError.AnyError .nil, .stringErrorType ""].Perm [.stringErrorType "", .AnyError .nil]
    ∧ GoError.structErrorType ≠ .nil
    ∧ (testRetry 3 (some [.AnyError .nil, .stringErrorType ""])).isMatchListedErrors
        .structErrorType = .ok true
    ∧ (testRetry 3 (some [.stringErrorType "", .AnyError .nil])).isMatchListedErrors
        .structErrorType = .ok false :=
  ⟨List.Perm.swap _ _ _, by decide, rfl, rfl⟩

/-- C10, amended: for two non-empty classifier lists that are permutations of each other
and whose first entries are both the wildcard or both not (the test
`errors.Is(ByErrors[0], AnyError{})` gives the same answer on the two), and every error
`e`, `isMatchListedErrors(e)` is the same under the two lists. -/
theorem isMatchListedErrors_perm (r₁ r₂ : Retry) (a₁ a₂ : GoError) (t₁ t₂ : List GoError)
    (e : GoError)
    (h₁ : r₁.config.ByErrors = some (a₁ :: t₁)) (h₂ : r₂.config.ByErrors = some (a₂ :: t₂))
    (hp : (a₁ :: t₁).Perm (a₂ :: t₂))
    (hw : errorsIs a₁ (.AnyError .nil) = errorsIs a₂ (.AnyError .nil)) :
    r₁.isMatchListedErrors e = r₂.isMatchListedErrors e := by
  cases hw₂ : errorsIs a₂ (.AnyError .nil) with
  | true =>
    rw [isMatchListedErrors_wildcard r₁ a₁ t₁ h₁ (hw.trans hw₂) e,
      isMatchListedErrors_wildcard r₂ a₂ t₂ h₂ hw₂ e]
  | false =>
    rw [isMatchListedErrors_listed r₁ a₁ t₁ h₁ (hw.trans hw₂) e,
      isMatchListedErrors_listed r₂ a₂ t₂ h₂ hw₂ e, any_perm _ hp]

/-- C10 amended, at two orders of a list that holds the wildcard after a specific
classifier: `[stringErrorType(""), AnyError{}, structErrorType{}]` and
`[structErrorType{}, stringErrorType(""), AnyError{}]`. -/
theorem isMatchListedErrors_perm_witness :
    ((testRetry 3 (some [.stringErrorType "", .AnyError .nil, .structErrorType])).config.ByErrors
        = some [.stringErrorType "", .AnyError .nil, .structErrorType]
      ∧ (testRetry 3 (some [.structErrorType, .stringErrorType "", .AnyError .nil])).config.ByErrors
        = some [.structErrorType, .stringErrorType "", .AnyError .nil]
      ∧ [GoError.stringErrorType "", .AnyError .nil, .structErrorType].Perm
          [.structErrorType, .stringErrorType "", .AnyError .nil]
      ∧ errorsIs (.stringErrorType "") (.AnyError .nil)
          = errorsIs .structErrorType (.AnyError .nil))
    ∧ (testRetry 3 (some [.stringErrorType "", .AnyError .nil,
          .structErrorType])).isMatchListedErrors directError
        = (testRetry 3 (some [.structErrorType, .stringErrorType "",
          .AnyError .nil])).isMatchListedErrors directError :=
  ⟨⟨rfl, rfl, by decide, rfl⟩,
   isMatchListedErrors_perm _ _ (.stringErrorType "") .structErrorType
    [.AnyError .nil, .structErrorType] [.stringErrorType "", .AnyError .nil] directError
    rfl rfl (by decide) rfl⟩

/-! ## What every run keeps to -/

/-- One turn of the loop, read backwards: a run that entered the loop ended at the first
call without a notification, or ended there through `callListener` on an error outside
`ByErrors`, or went round once more after a retry. -/
theorem loop_succ_cases (fuel : Nat) (r : Retry) (op : Operation) (calls : Nat) (run : Run)
    (hlt : r.retryCount < r.config.MaxRetry)
    (h : Retry.OnRetry.loop (fuel + 1) r op calls = some run) :
    (run.state = r ∧ run.trace = [.invoke])
    ∨ (∃ err, op calls = .returns err ∧ err ≠ .nil ∧ r.isMatchListedErrors err = .ok false
        ∧ run.state = r ∧ run.trace = .invoke :: r.callListener (.ofError err)
        ∧ run.panicked = none)
    ∨ (∃ next evs,
        Retry.OnRetry.loop fuel { r with retryCount := r.retryCount + 1 } op (calls + 1)
          = some next
        ∧ run = Run.after evs next
        ∧ ((r.retryCount ≥ r.config.MaxRetry - 1 ∧ evs = [.invoke])
          ∨ (r.retryCount < r.config.MaxRetry - 1
              ∧ ∃ f, r.config.DelayFunc = some f ∧ evs = [.invoke, .sleep (f r.retryCount)]))) := by
  cases hop : op calls with
  | panics v =>
    rw [loop_panics fuel r op calls v hlt hop] at h
    cases h; exact Or.inl ⟨rfl, rfl⟩
  | returns err =>
    by_cases he : err = .nil
    · subst he
      rw [loop_success fuel r op calls hlt hop] at h
      cases h; exact Or.inl ⟨rfl, rfl⟩
    · cases hm : r.isMatchListedErrors err with
      | error v =>
        simp only [Retry.OnRetry.loop, hlt, hop, recover, he, hm] at h
        simp at h
        subst h; exact Or.inl ⟨rfl, rfl⟩
      | ok b =>
        cases b with
        | false =>
          rw [loop_nomatch fuel r op calls err hlt hop he hm] at h
          cases h; exact Or.inr (Or.inl ⟨err, rfl, he, hm, rfl, rfl, rfl⟩)
        | true =>
          by_cases hl : r.retryCount ≥ r.config.MaxRetry - 1
          · simp only [Retry.OnRetry.loop, hlt, hop, recover, he, hm, Retry.isTheLastRetry,
              hl] at h
            simp at h
            obtain ⟨next, hnext, hrun⟩ := h
            exact Or.inr (Or.inr ⟨next, _, hnext, hrun.symm, Or.inl ⟨hl, rfl⟩⟩)
          · cases hd : r.config.DelayFunc with
            | none =>
              simp only [Retry.OnRetry.loop, hlt, hop, recover, he, hm,
                Retry.isTheLastRetry, hl, hd] at h
              simp at h
              subst h; exact Or.inl ⟨rfl, rfl⟩
            | some f =>
              simp only [Retry.OnRetry.loop, hlt, hop, recover, he, hm,
                Retry.isTheLastRetry, hl, hd] at h
              simp at h
              obtain ⟨next, hnext, hrun⟩ := h
              exact Or.inr (Or.inr ⟨next, _, hnext, hrun.symm,
                Or.inr ⟨by omega, f, rfl, rfl⟩⟩)


theorem callListener_notifications_le (r : Retry) (v : GoValue) :
    (notifications (r.callListener v)).length ≤ 1 := by
  unfold Retry.callListener
  cases r.retryListener <;> simp [notifications]

theorem callListener_notifications_mem (r : Retry) (v : GoValue) (info : Info)
    (h : info ∈ notifications (r.callListener v)) : info.Error = v := by
  unfold Retry.callListener at h
  cases hl : r.retryListener with
  | none => simp [hl, notifications] at h
  | some l =>
    simp [hl, notifications] at h
    rw [h]

theorem callListener_sleeps (r : Retry) (v : GoValue) : sleeps (r.callListener v) = [] := by
  unfold Retry.callListener
  cases r.retryListener <;> simp [sleeps]

theorem callListener_invocations (r : Retry) (v : GoValue) :
    invocations (r.callListener v) = 0 := by
  unfold Retry.callListener
  cases r.retryListener <;> simp [invocations]

theorem sleeps_cons_invoke (t : List Event) : sleeps (.invoke :: t) = sleeps t := rfl

theorem sleeps_cons_sleep (d : Int) (t : List Event) :
    sleeps (.sleep d :: t) = d :: sleeps t := rfl

theorem notifications_cons_invoke (t : List Event) :
    notifications (.invoke :: t) = notifications t := rfl

theorem notifications_cons_sleep (d : Int) (t : List Event) :
    notifications (.sleep d :: t) = notifications t := rfl

theorem invocations_cons_invoke (t : List Event) :
    invocations (.invoke :: t) = invocations t + 1 := by
  simp [invocations]

theorem invocations_cons_sleep (d : Int) (t : List Event) :
    invocations (.sleep d :: t) = invocations t := by
  simp [invocations]

theorem after_last_trace (next : Run) :
    (Run.after [.invoke] next).trace = .invoke :: next.trace := rfl

theorem after_retry_trace (d : Int) (next : Run) :
    (Run.after [.invoke, .sleep d] next).trace = .invoke :: .sleep d :: next.trace := rfl

theorem after_state (evs : List Event) (next : Run) : (Run.after evs next).state = next.state :=
  rfl

/-- What every run of the loop keeps to, whatever the config and the operation: the config
and the listener stay, the calls and the sleeps stay within what is left of `MaxRetry`,
the listener is called at most once and only for an error outside `ByErrors`, and each
sleep lasts what `DelayFunc` gives for the attempt count of its turn. -/
theorem loop_invariant (op : Operation) (fuel : Nat) :
    ∀ (r : Retry) (calls : Nat) (run : Run),
      Retry.OnRetry.loop fuel r op calls = some run →
      run.state.config = r.config ∧ run.state.retryListener = r.retryListener
      ∧ invocations run.trace ≤ (r.config.MaxRetry - r.retryCount).toNat
      ∧ (sleeps run.trace).length ≤ (r.config.MaxRetry - r.retryCount - 1).toNat
      ∧ (notifications run.trace).length ≤ 1
      ∧ (∀ info ∈ notifications run.trace, ∃ err, info.Error = .ofError err ∧ err ≠ .nil
          ∧ r.isMatchListedErrors err = .ok false)
      ∧ (∀ f, r.config.DelayFunc = some f →
          sleeps run.trace = (List.range (sleeps run.trace).length).map
            (fun (i : Nat) => f (r.retryCount + i))) := by
  induction fuel with
  | zero =>
    intro r calls run h
    by_cases hlt : r.retryCount < r.config.MaxRetry
    · simp [Retry.OnRetry.loop, hlt] at h
    · simp [Retry.OnRetry.loop, hlt] at h
      subst h
      simp [invocations, sleeps, notifications]
  | succ fuel ih =>
    intro r calls run h
    by_cases hlt : r.retryCount < r.config.MaxRetry
    · rcases loop_succ_cases fuel r op calls run hlt h with
        ⟨hs, ht⟩ | ⟨err, -, he, hm, hs, ht, -⟩ | ⟨next, evs, hnext, hrun, hevs⟩
      · rw [hs, ht]
        refine ⟨rfl, rfl, ?_, ?_, ?_, ?_, ?_⟩ <;>
          simp [invocations, sleeps, notifications]
        omega
      · rw [hs, ht]
        refine ⟨rfl, rfl, ?_, ?_, ?_, ?_, ?_⟩
        · rw [show (Event.invoke :: r.callListener (.ofError err))
              = [Event.invoke] ++ r.callListener (.ofError err) from rfl,
            invocations_append, callListener_invocations]
          simp [invocations]; omega
        · simp [sleeps, callListener_sleeps]
        · simpa [notifications] using callListener_notifications_le r (.ofError err)
        · intro info hinfo
          simp only [notifications] at hinfo
          exact ⟨err, callListener_notifications_mem r _ info hinfo, he, hm⟩
        · intro f _
          simp [sleeps, callListener_sleeps]
      · obtain ⟨hc, hl, hinv, hsl, hno, hmem, hdur⟩ := ih _ _ next hnext
        simp only at hc hl hinv hsl hmem hdur
        subst hrun
        rcases hevs with ⟨hlast, rfl⟩ | ⟨hnl, f, hf, rfl⟩
        · have hz : sleeps next.trace = [] := by
            apply List.eq_nil_of_length_eq_zero; omega
          rw [after_state, after_last_trace, sleeps_cons_invoke, notifications_cons_invoke,
            invocations_cons_invoke, hz]
          refine ⟨hc, hl, by omega, by simp, hno, ?_, ?_⟩
          · intro info hinfo
            obtain ⟨e, h1, h2, h3⟩ := hmem info hinfo
            exact ⟨e, h1, h2, by rw [← h3]; exact isMatchListedErrors_config _ _ _ rfl⟩
          · intro g _
            simp
        · rw [after_state, after_retry_trace, sleeps_cons_invoke, sleeps_cons_sleep,
            notifications_cons_invoke, notifications_cons_sleep, invocations_cons_invoke,
            invocations_cons_sleep]
          refine ⟨hc, hl, by omega, by simp only [List.length_cons]; omega, hno, ?_, ?_⟩
          · intro info hinfo
            obtain ⟨e, h1, h2, h3⟩ := hmem info hinfo
            exact ⟨e, h1, h2, by rw [← h3]; exact isMatchListedErrors_config _ _ _ rfl⟩
          · intro g hg
            have hfg : g = f := by rw [hf] at hg; exact (Option.some.inj hg).symm
            subst hfg
            have hd := hdur g hf
            rw [List.length_cons, List.range_succ_eq_map, List.map_cons, List.map_map]
            conv_lhs => rw [hd]
            simp [Function.comp_def, Int.add_assoc, Int.add_comm 1]
    · rw [loop_exhausted fuel.succ r op calls hlt] at h
      cases h
      simp [invocations, sleeps, notifications]


/-- What every call of `OnRetry` keeps to: it ends with a result, and that result obeys
`loop_invariant` from attempt count 0. -/
theorem OnRetry_invariant (r : Retry) (op : Operation) :
    ∃ run, r.OnRetry op = some run
      ∧ run.state.config = r.config ∧ run.state.retryListener = r.retryListener
      ∧ invocations run.trace ≤ r.config.MaxRetry.toNat
      ∧ (sleeps run.trace).length ≤ (r.config.MaxRetry - 1).toNat
      ∧ (notifications run.trace).length ≤ 1
      ∧ (∀ info ∈ notifications run.trace, ∃ err, info.Error = .ofError err ∧ err ≠ .nil
          ∧ r.isMatchListedErrors err = .ok false)
      ∧ (∀ f, r.config.DelayFunc = some f →
          sleeps run.trace = (List.range (sleeps run.trace).length).map
            (fun (i : Nat) => f (i : Int))) := by
  obtain ⟨run, hrun⟩ := Option.isSome_iff_exists.1 (OnRetry_isSome r op)
  obtain ⟨hc, hl, hinv, hsl, hno, hmem, hdur⟩ :=
    loop_invariant op _ { r with retryCount := 0 } 0 run hrun
  simp only [Int.sub_zero, Int.zero_add] at hc hl hinv hsl hdur
  refine ⟨run, hrun, hc, hl, hinv, hsl, hno, ?_, hdur⟩
  intro info hinfo
  obtain ⟨e, h1, h2, h3⟩ := hmem info hinfo
  exact ⟨e, h1, h2, by rw [← h3]; exact isMatchListedErrors_config _ _ _ rfl⟩

theorem validate_delay (c : Config) (hv : c.Validate = .ok ()) :
    ∃ f, c.DelayFunc = some f := by
  obtain ⟨-, -, hd⟩ := (validate_ok_iff c).1 hv
  cases h : c.DelayFunc with
  | none => exact absurd h hd
  | some f => exact ⟨f, rfl⟩

theorem isMatchListedErrors_byErrors (r s : Retry) (e : GoError)
    (h : r.config.ByErrors = s.config.ByErrors) :
    r.isMatchListedErrors e = s.isMatchListedErrors e := by
  simp [Retry.isMatchListedErrors, h]

theorem loop_fault (fuel : Nat) (r : Retry) (op : Operation) (calls : Nat) (e : GoError)
    (v : GoValue)
    (h : r.retryCount < r.config.MaxRetry) (hop : op calls = .returns e) (he : e ≠ .nil)
    (hm : r.isMatchListedErrors e = .error v) :
    Retry.OnRetry.loop (fuel + 1) r op calls
      = some { state := r, trace := [.invoke], panicked := some v } := by
  simp [Retry.OnRetry.loop, h, hop, recover, he, hm]

/-- The loop looks at the delay function only where it sleeps: under another delay
function that agrees with `f` at the attempt counts of the sleeps of a run, the loop makes
the same run. -/
theorem loop_delay_congr (op : Operation) (f g : Int → Int) (fuel : Nat) :
    ∀ (r : Retry) (calls : Nat) (run : Run),
      r.config.DelayFunc = some f →
      Retry.OnRetry.loop fuel r op calls = some run →
      (∀ i : Nat, i < (sleeps run.trace).length →
        g (r.retryCount + i) = f (r.retryCount + i)) →
      ∃ other,
        Retry.OnRetry.loop fuel { r with config := { r.config with DelayFunc := some g } }
          op calls = some other
        ∧ other.trace = run.trace ∧ other.panicked = run.panicked := by
  induction fuel with
  | zero =>
    intro r calls run _ h _
    by_cases hlt : r.retryCount < r.config.MaxRetry
    · simp [Retry.OnRetry.loop, hlt] at h
    · simp [Retry.OnRetry.loop, hlt] at h
      subst h
      exact ⟨_, loop_exhausted 0 _ op calls hlt, rfl, rfl⟩
  | succ fuel ih =>
    intro r calls run hf h hag
    by_cases hlt : r.retryCount < r.config.MaxRetry
    · cases hop : op calls with
      | panics v =>
        rw [loop_panics fuel r op calls v hlt hop] at h
        cases h
        exact ⟨_, loop_panics fuel _ op calls v hlt hop, rfl, rfl⟩
      | returns err =>
        by_cases he : err = .nil
        · subst he
          rw [loop_success fuel r op calls hlt hop] at h
          cases h
          exact ⟨_, loop_success fuel _ op calls hlt hop, rfl, rfl⟩
        · cases hm : r.isMatchListedErrors err with
          | error v =>
            have hm2 := (isMatchListedErrors_byErrors
              { r with config := { r.config with DelayFunc := some g } } r err rfl).trans hm
            rw [loop_fault fuel r op calls err v hlt hop he hm] at h
            cases h
            exact ⟨_, loop_fault fuel _ op calls err v hlt hop he hm2, rfl, rfl⟩
          | ok b =>
            have hm2 := (isMatchListedErrors_byErrors
              { r with config := { r.config with DelayFunc := some g } } r err rfl).trans hm
            cases b with
            | false =>
              rw [loop_nomatch fuel r op calls err hlt hop he hm] at h
              cases h
              exact ⟨_, loop_nomatch fuel _ op calls err hlt hop he hm2, rfl, rfl⟩
            | true =>
              have hstep := loop_retry fuel r op calls err f hlt hop he hm hf
              have hstep2 := loop_retry fuel
                { r with config := { r.config with DelayFunc := some g } } op calls err g
                hlt hop he hm2 rfl
              rw [hstep] at h
              cases hnext : Retry.OnRetry.loop fuel
                  { r with retryCount := r.retryCount + 1 } op (calls + 1) with
              | none => simp [hnext] at h
              | some next =>
                simp only [hnext, Option.map_some', Option.some.injEq] at h
                subst h
                by_cases hl : r.retryCount ≥ r.config.MaxRetry - 1
                · simp only [hl, if_true] at hag hstep2 ⊢
                  obtain ⟨other, ho, ht, hp⟩ := ih { r with retryCount := r.retryCount + 1 }
                    (calls + 1) next hf hnext (by
                      intro i hi
                      have := hag i (by
                        rw [after_last_trace, sleeps_cons_invoke]; exact hi)
                      have hz := (loop_invariant op fuel _ _ next hnext).2.2.2.1
                      simp only at hz
                      omega)
                  refine ⟨Run.after [.invoke] other, ?_, ?_, ?_⟩
                  · rw [hstep2]
                    simp only at ho ⊢
                    rw [ho]; rfl
                  · rw [after_last_trace, after_last_trace, ht]
                  · exact hp
                · simp only [hl, if_false] at hag hstep2 ⊢
                  have h0 : g r.retryCount = f r.retryCount := by
                    have := hag 0 (by
                      rw [after_retry_trace, sleeps_cons_invoke, sleeps_cons_sleep]
                      simp)
                    simpa using this
                  obtain ⟨other, ho, ht, hp⟩ := ih { r with retryCount := r.retryCount + 1 }
                    (calls + 1) next hf hnext (by
                      intro i hi
                      have := hag (i + 1) (by
                        rw [after_retry_trace, sleeps_cons_invoke, sleeps_cons_sleep]
                        simpa using hi)
                      simp only at this ⊢
                      rw [Int.add_assoc, Int.add_comm 1]
                      push_cast at this
                      exact this)
                  refine ⟨Run.after [.invoke, .sleep (g r.retryCount)] other, ?_, ?_, ?_⟩
                  · rw [hstep2]
                    simp only at ho ⊢
                    rw [ho]; rfl
                  · rw [after_retry_trace, after_retry_trace, ht, h0]
                  · exact hp
    · rw [loop_exhausted fuel.succ r op calls hlt] at h
      cases h
      exact ⟨_, loop_exhausted fuel.succ _ op calls hlt, rfl, rfl⟩

/-! ## The exponential delay -/

theorem ExponentialDelayFunc_of_nonneg (k : Nat) (hk : k ≤ 62) :
    ExponentialDelayFunc (k : Int) = some (2 ^ k) := by
  have hq : ((2 : ℚ) ^ ((k : Int))) = (((2 : Int) ^ k : Int) : ℚ) := by
    simp
  have hpos : (0 : ℚ) ≤ (((2 : Int) ^ k : Int) : ℚ) := by positivity
  have hlt : (2 : Int) ^ k < 2 ^ 63 :=
    pow_lt_pow_right₀ (by norm_num) (by omega)
  have hge : -(2 : Int) ^ 63 ≤ 2 ^ k := by
    have : (0 : Int) < 2 ^ k := by positivity
    omega
  have h1 : ¬ ((k : Int) > 1023) := by omega
  have h2 : ¬ ((k : Int) < -1074) := by omega
  simp only [ExponentialDelayFunc, mathExp2, h1, h2, if_false, intOfFloat64, hq, hpos,
    if_true, Int.floor_intCast]
  rw [if_pos ⟨hge, hlt⟩]

theorem ExponentialDelayFunc_of_neg (n : Int) (hn : n < 0) :
    ExponentialDelayFunc n = some 0 := by
  have h1 : ¬ (n > 1023) := by omega
  by_cases h2 : n < -1074
  · simp [ExponentialDelayFunc, mathExp2, h1, h2, intOfFloat64]
  · have hpos : (0 : ℚ) < (2 : ℚ) ^ n := by positivity
    have hlt : (2 : ℚ) ^ n < 1 := zpow_lt_one_of_neg₀ (by norm_num) hn
    have hfl : ⌊(2 : ℚ) ^ n⌋ = 0 := Int.floor_eq_zero_iff.2 ⟨hpos.le, hlt⟩
    simp only [ExponentialDelayFunc, mathExp2, h1, h2, if_false, intOfFloat64, hpos.le,
      if_true, hfl]
    simp

/-! ## Notifications, delays and the state of the controller -/

/-- Notifications, where the classification returns: under an accepted config with a
registered listener, a call of `OnRetry` ends with a result in which the listener is
called at most once, and only with a returned error for which `isMatchListedErrors`
returned false, never with a retried one. It is called exactly once, with that error and
the attempt count, when the run ends at such an error; it is not called when the run ends
at a nil return, nor when every one of the `MaxRetry` attempts returned a matching
error. -/
theorem listener_called_by_outcome (r : Retry) (op : Operation) (listener : Nat)
    (hv : r.config.Validate = .ok ()) (hl : r.retryListener = some listener) :
    ∃ run, r.OnRetry op = some run
      ∧ (notifications run.trace).length ≤ 1
      ∧ (∀ info ∈ notifications run.trace, ∃ err, info.Error = .ofError err ∧ err ≠ .nil
          ∧ r.isMatchListedErrors err = .ok false)
      ∧ (∀ (j : Nat) (err : GoError), (j : Int) < r.config.MaxRetry →
          (∀ n, n < j → ∃ e, op n = .returns e ∧ e ≠ .nil
            ∧ r.isMatchListedErrors e = .ok true) →
          op j = .returns err → err ≠ .nil → r.isMatchListedErrors err = .ok false →
          notifications run.trace = [{ Error := .ofError err, RetryCount := j }])
      ∧ (∀ j : Nat, (j : Int) < r.config.MaxRetry →
          (∀ n, n < j → ∃ e, op n = .returns e ∧ e ≠ .nil
            ∧ r.isMatchListedErrors e = .ok true) →
          op j = .returns .nil → notifications run.trace = [])
      ∧ ((∀ n : Nat, (n : Int) < r.config.MaxRetry → ∃ e, op n = .returns e ∧ e ≠ .nil
            ∧ r.isMatchListedErrors e = .ok true) →
          notifications run.trace = []) := by
  obtain ⟨f, hf⟩ := validate_delay r.config hv
  obtain ⟨run, hrun, -, -, -, -, hno, hmem, -⟩ := OnRetry_invariant r op
  refine ⟨run, hrun, hno, hmem, ?_, ?_, ?_⟩
  · intro j err hj hpre hop hne hm
    have h := OnRetry_gives_up r op f j err hj hf hpre hop hne hm
    rw [hrun] at h
    cases h
    simp only [Retry.callListener, hl]
    rw [notifications_retries_then]; simp [notifications]
  · intro j hj hpre hop
    have h := OnRetry_succeeds r op f j hj hf hpre hop
    rw [hrun] at h
    cases h
    rw [notifications_retries_then]; simp [notifications]
  · intro hall
    by_cases hpos : r.config.MaxRetry ≤ 0
    · have h := OnRetry_no_budget r op hpos
      rw [hrun] at h
      cases h
      rfl
    · have h := OnRetry_exhausts r op f r.config.MaxRetry.toNat (by omega) (by omega) hf
        (fun n hn => hall n (by omega))
      rw [hrun] at h
      cases h
      rw [notifications_retries_then]; simp [notifications]

/-- Notifications at `TestRetry_003`: the run ends at an error that does not match, and
the listener is called once. -/
theorem listener_called_by_outcome_witness :
    ((testRetry 3 (some [.stringErrorType ""])).config.Validate = .ok ()
      ∧ (testRetry 3 (some [.stringErrorType ""])).retryListener = some 0)
    ∧ ((testRetry 3 (some [.stringErrorType ""])).OnRetry
        (newErrorProducer 3 directError)).map (fun run => notifications run.trace)
      = some [{ Error := .ofError directError, RetryCount := 0 }]
    ∧ ∃ run, (testRetry 3 (some [.stringErrorType ""])).OnRetry
          (newErrorProducer 3 directError) = some run
      ∧ (notifications run.trace).length ≤ 1 := by
  obtain ⟨run, h1, h2, -⟩ := listener_called_by_outcome
    (testRetry 3 (some [.stringErrorType ""])) (newErrorProducer 3 directError) 0 rfl rfl
  exact ⟨⟨rfl, rfl⟩, rfl, run, h1, h2⟩


/-- C12: `New()` holds the default policy: `MaxRetry = MaxRetryForever = 99999999`,
`DelayFunc = ConstantOneSecondDelayFunc`, which is one second (`10^9` ns) at every attempt
index, negative ones too, `ByErrors = [AnyError{}]`; it has no listener and attempt count
0; and `Validate` accepts this policy. -/
theorem New_holds_default_policy :
    New.config.MaxRetry = MaxRetryForever ∧ MaxRetryForever = 99999999
    ∧ New.config.DelayFunc = some ConstantOneSecondDelayFunc
    ∧ (∀ attempt : Int, ConstantOneSecondDelayFunc attempt = 10 ^ 9)
    ∧ New.config.ByErrors = some [.AnyError .nil]
    ∧ New.config.ByErrors = DefaultAnyError
    ∧ New.retryListener = none ∧ New.retryCount = 0
    ∧ New.config.Validate = .ok () := by
  refine ⟨rfl, rfl, rfl, ?_, rfl, rfl, rfl, rfl, rfl⟩
  intro attempt
  simp [ConstantOneSecondDelayFunc]

/-- C13: in every run of `OnRetry` under a config with delay function `f`, the sleeps of
the run are, in order, `f 0, f 1, ..., f (d-1)`: sleep number `i` lasts exactly `f i`, and
the run asks for `f 0 + ... + f (d-1)` of sleep in all. The delay function is given the
attempt index and nothing else counts: a delay function that agrees with `f` at
`0, ..., d-1` gives the same run. -/
theorem sleeps_follow_DelayFunc (r : Retry) (op : Operation) (f : Int → Int)
    (hf : r.config.DelayFunc = some f) :
    ∃ run, r.OnRetry op = some run
      ∧ sleeps run.trace
          = (List.range (sleeps run.trace).length).map (fun (i : Nat) => f (i : Int))
      ∧ (∀ (i : Nat) (d : Int), (sleeps run.trace)[i]? = some d → d = f (i : Int))
      ∧ (sleeps run.trace).sum
          = ∑ i in Finset.range (sleeps run.trace).length, f (i : Int)
      ∧ (∀ g : Int → Int,
          (∀ i : Nat, i < (sleeps run.trace).length → g (i : Int) = f (i : Int)) →
          ∃ other,
            ({ r with config := { r.config with DelayFunc := some g } } : Retry).OnRetry op
              = some other
            ∧ other.trace = run.trace ∧ other.panicked = run.panicked) := by
  obtain ⟨run, hrun, -, -, -, -, -, -, hdur⟩ := OnRetry_invariant r op
  have hd := hdur f hf
  refine ⟨run, hrun, hd, ?_, ?_, ?_⟩
  rotate_left 2
  · intro g hg
    exact loop_delay_congr op f g _ { r with retryCount := 0 } 0 run hf hrun
      (fun i hi => by simpa using hg i hi)
  · intro i d hi
    rw [hd, List.getElem?_map] at hi
    cases hr : (List.range (sleeps run.trace).length)[i]? with
    | none => simp [hr] at hi
    | some k =>
      have hk : k = i := by
        rw [List.getElem?_range (by
          by_contra hge
          rw [List.getElem?_eq_none (by simpa using hge)] at hr
          cases hr)] at hr
        exact (Option.some.inj hr).symm
      subst hk
      simp [hr] at hi
      exact hi.symm
  · conv_lhs => rw [hd]
    generalize (sleeps run.trace).length = d
    induction d with
    | zero => simp
    | succ d ih => rw [List.range_succ, List.map_append, List.sum_append, ih,
        Finset.sum_range_succ]; simp

/-- C13 at a controller with `MaxRetry` 10, the wildcard and the delay `1000 * (i + 1)`,
and an operation that fails three times: the sleeps are 1000, 2000 and 3000. -/
theorem sleeps_follow_DelayFunc_witness :
    (({ config := { MaxRetry := 10, DelayFunc := some (fun i => 1000 * (i + 1)),
                    ByErrors := DefaultAnyError },
        retryCount := 0, retryListener := none } : Retry).config.DelayFunc
        = some (fun i => 1000 * (i + 1)))
    ∧ (({ config := { MaxRetry := 10, DelayFunc := some (fun i => 1000 * (i + 1)),
                      ByErrors := DefaultAnyError },
          retryCount := 0, retryListener := none } : Retry).OnRetry
          (newErrorProducer 3 directError)).map (fun run => sleeps run.trace)
        = some [1000, 2000, 3000]
    ∧ ∃ run, ({ config := { MaxRetry := 10, DelayFunc := some (fun i => 1000 * (i + 1)),
                            ByErrors := DefaultAnyError },
                retryCount := 0, retryListener := none } : Retry).OnRetry
          (newErrorProducer 3 directError) = some run
      ∧ sleeps run.trace = (List.range (sleeps run.trace).length).map
          (fun (i : Nat) => (fun i => 1000 * (i + 1)) (i : Int)) := by
  obtain ⟨run, h1, h2, -⟩ := sleeps_follow_DelayFunc
    { config := { MaxRetry := 10, DelayFunc := some (fun i => 1000 * (i + 1)),
                  ByErrors := DefaultAnyError },
      retryCount := 0, retryListener := none }
    (newErrorProducer 3 directError) (fun i => 1000 * (i + 1)) rfl
  exact ⟨rfl, rfl, run, h1, h2⟩

/-- C14: for an attempt index `n <= 62`, `ExponentialDelayFunc n` is the floor of `2^n`
nanoseconds: exactly `2^n` for `0 <= n <= 62`, so strictly increasing there, and 0 for
`n < 0`. -/
theorem ExponentialDelayFunc_floor_pow (n : Int) (hn : n ≤ 62) :
    ExponentialDelayFunc n = some ⌊(2 : ℚ) ^ n⌋
    ∧ (0 ≤ n → ExponentialDelayFunc n = some (2 ^ n.toNat))
    ∧ (n < 0 → ExponentialDelayFunc n = some 0)
    ∧ (∀ m : Int, 0 ≤ m → m < n →
        ∃ a b, ExponentialDelayFunc m = some a ∧ ExponentialDelayFunc n = some b ∧ a < b) := by
  have hnonneg : ∀ m : Int, 0 ≤ m → m ≤ 62 → ExponentialDelayFunc m = some (2 ^ m.toNat) := by
    intro m h0 h62
    have h := ExponentialDelayFunc_of_nonneg m.toNat (by omega)
    rwa [Int.toNat_of_nonneg h0] at h
  refine ⟨?_, fun h0 => hnonneg n h0 hn, ExponentialDelayFunc_of_neg n, ?_⟩
  · by_cases h0 : 0 ≤ n
    · rw [hnonneg n h0 hn]
      obtain ⟨k, rfl⟩ := Int.eq_ofNat_of_zero_le h0
      have hq : ((2 : ℚ) ^ ((k : Int))) = (((2 : Int) ^ k : Int) : ℚ) := by
        simp
      rw [hq, Int.floor_intCast, Int.toNat_natCast]
    · have hneg : n < 0 := by omega
      have hpos : (0 : ℚ) < (2 : ℚ) ^ n := by positivity
      have hlt : (2 : ℚ) ^ n < 1 := zpow_lt_one_of_neg₀ (by norm_num) hneg
      rw [ExponentialDelayFunc_of_neg n hneg, Int.floor_eq_zero_iff.2 ⟨hpos.le, hlt⟩]
  · intro m h0 hmn
    refine ⟨_, _, hnonneg m h0 (by omega), hnonneg n (by omega) hn, ?_⟩
    exact pow_lt_pow_right₀ (by norm_num) (by omega)

/-- C14 at `n = 3`: `ExponentialDelayFunc 3` is 8 nanoseconds. -/
theorem ExponentialDelayFunc_floor_pow_witness :
    (3 : Int) ≤ 62 ∧ ExponentialDelayFunc 3 = some 8 := by
  refine ⟨by decide, ?_⟩
  have h := (ExponentialDelayFunc_floor_pow 3 (by decide)).2.1 (by decide)
  simpa using h

/-- C15, at the failing input: with `MaxRetry` 3 and `ByErrors = [stringErrorType("")]`,
the error `stringErrorType("2")`, of the listed type, does not match, since `errors.Is`
compares values: the operation that returns it is called once, not retried, and the
listener is called with `RetryCount` 0. -/
theorem same_type_other_value_not_retried :
    (testRetry 3 (some [.stringErrorType ""])).isMatchListedErrors (.stringErrorType "2")
      = .ok false
    ∧ ((testRetry 3 (some [.stringErrorType ""])).OnRetry
        (newErrorProducer 5 (.stringErrorType "2"))).map
        (fun run => (run.trace, run.panicked))
      = some ([Event.invoke,
               Event.notify 0 { Error := .ofError (.stringErrorType "2"), RetryCount := 0 }],
              none) := by
  constructor <;> rfl

/-- C16: a run starts from attempt count 0. Whatever `retryCount` holds, `OnRetry` does
exactly what it does on the controller with the same config and listener and count 0:
same calls, sleeps, notification and end. So a second `OnRetry` on the controller a run
left behind, with an operation behaving the same, gives the same run again. -/
theorem OnRetry_starts_from_zero (r : Retry) (op : Operation) :
    r.OnRetry op
      = ({ config := r.config, retryCount := 0, retryListener := r.retryListener }
          : Retry).OnRetry op
    ∧ (∀ count : Int, ({ r with retryCount := count } : Retry).OnRetry op = r.OnRetry op)
    ∧ ∃ run, r.OnRetry op = some run ∧ run.state.OnRetry op = some run := by
  refine ⟨rfl, fun _ => rfl, ?_⟩
  obtain ⟨run, hrun, hc, hl, -⟩ := OnRetry_invariant r op
  refine ⟨run, hrun, ?_⟩
  rw [← hrun]
  unfold Retry.OnRetry
  rw [hc, hl]

/-- C17: `OnRetry` ends with the config and the listener it started with, whatever the
operation does; `SetRetryListener` changes the listener and nothing else; and `SetConfig`
leaves the whole controller as it was unless it returns nil. -/
theorem config_changes_only_by_SetConfig (r : Retry) (op : Operation) :
    (∃ run, r.OnRetry op = some run ∧ run.state.config = r.config
      ∧ run.state.retryListener = r.retryListener)
    ∧ (∀ reporter : Option Nat,
        (r.SetRetryListener reporter).retryListener = reporter
        ∧ (r.SetRetryListener reporter).config = r.config
        ∧ (r.SetRetryListener reporter).retryCount = r.retryCount)
    ∧ (∀ c : Config, (r.SetConfig c).1 ≠ .ok () → (r.SetConfig c).2 = r) := by
  obtain ⟨run, hrun, hc, hl, -⟩ := OnRetry_invariant r op
  refine ⟨⟨run, hrun, hc, hl⟩, fun _ => ⟨rfl, rfl, rfl⟩, ?_⟩
  intro c hne
  unfold Retry.SetConfig at hne ⊢
  cases hv : c.Validate with
  | error msg => rfl
  | ok u => simp [hv] at hne

/-- C18, at the failing input: `SetConfig` accepts the config with `MaxRetry` 3 and the
empty, non-nil `ByErrors`; then, on an operation that returns a non-nil error, `ByErrors[0]`
is out of range: `isMatchListedErrors` panics, and the panic leaves `OnRetry` after the
first call. -/
theorem empty_ByErrors_index_out_of_range :
    (New.SetConfig { MaxRetry := 3, DelayFunc := some ConstantOneSecondDelayFunc,
                     ByErrors := some [] }).1 = .ok ()
    ∧ (New.SetConfig { MaxRetry := 3, DelayFunc := some ConstantOneSecondDelayFunc,
                       ByErrors := some [] }).2.isMatchListedErrors directError
        = .error (.ofError (.boundsError 0 0))
    ∧ ((New.SetConfig { MaxRetry := 3, DelayFunc := some ConstantOneSecondDelayFunc,
                        ByErrors := some [] }).2.OnRetry (fun _ => .returns directError)).map
        (fun run => (run.trace, run.panicked))
      = some ([Event.invoke], some (.ofError (.boundsError 0 0))) := by
  refine ⟨rfl, rfl, rfl⟩

/-- C19: `OnRetry` always ends, after at most `max(MaxRetry, 0)` calls of the operation
and at most `max(MaxRetry - 1, 0)` sleeps, whatever the config and the operation; with a
negative `MaxRetry` it returns at once: no call, no sleep, no notification. -/
theorem OnRetry_within_budget (r : Retry) (op : Operation) :
    ∃ run, r.OnRetry op = some run
      ∧ (invocations run.trace : Int) ≤ max r.config.MaxRetry 0
      ∧ ((sleeps run.trace).length : Int) ≤ max (r.config.MaxRetry - 1) 0
      ∧ (r.config.MaxRetry < 0 →
          run.trace = [] ∧ run.panicked = none ∧ invocations run.trace = 0
          ∧ sleeps run.trace = [] ∧ notifications run.trace = []) := by
  obtain ⟨run, hrun, -, -, hinv, hsl, -⟩ := OnRetry_invariant r op
  refine ⟨run, hrun, by omega, by omega, ?_⟩
  intro hneg
  have h := OnRetry_no_budget r op (by omega)
  rw [hrun] at h
  cases h
  exact ⟨rfl, rfl, rfl, rfl, rfl⟩

/-! ## Unlisted errors under the empty list of classifiers -/

/-- C3, at the failing input: `SetConfig` accepted `MaxRetry` 3 with the empty, non-nil
`ByErrors`, listener 0 is registered, and the first call of the operation returns the
non-nil error `fmt.Errorf("direct error fmt")`, which no classifier of the config matches.
`OnRetry` calls the operation once and is then left by the index panic of
`isMatchListedErrors`: it does not return to its caller and the listener is not called. -/
theorem unlisted_error_under_empty_ByErrors :
    (testRetry 3 (some [])).config.Validate = .ok ()
    ∧ (testRetry 3 (some [])).config.ByErrors = some []
    ∧ (1 : Int) ≤ (testRetry 3 (some [])).config.MaxRetry
    ∧ (testRetry 3 (some [])).retryListener = some 0
    ∧ newErrorProducer 3 directError 0 = .returns directError
    ∧ directError ≠ .nil
    ∧ (testRetry 3 (some [])).isMatchListedErrors directError
        = .error (.ofError (.boundsError 0 0))
    ∧ ((testRetry 3 (some [])).OnRetry (newErrorProducer 3 directError)).map
        (fun run => (run.trace, notifications run.trace, run.panicked))
      = some ([Event.invoke], [], some (.ofError (.boundsError 0 0))) := by
  refine ⟨rfl, rfl, by decide, rfl, rfl, by decide, rfl, rfl⟩

/-- C11, at the failing input: `SetConfig` accepted `MaxRetry` 10 with the empty, non-nil
`ByErrors`, listener 0 is registered, and the operation never panics: every call returns
`stringErrorType("2")`, which no classifier of the config matches. The run ends at the
first returned error, neither in success nor with the attempts used up, and the listener
is called zero times: the index panic of `isMatchListedErrors` leaves `OnRetry` first. -/
theorem no_notification_under_empty_ByErrors :
    (testRetry 10 (some [])).config.Validate = .ok ()
    ∧ (testRetry 10 (some [])).config.ByErrors = some []
    ∧ (testRetry 10 (some [])).retryListener = some 0
    ∧ (∀ n : Nat, ∃ e, (fun _ => Outcome.returns (.stringErrorType "2") : Operation) n
        = .returns e)
    ∧ ((testRetry 10 (some [])).OnRetry (fun _ => .returns (.stringErrorType "2"))).map
        (fun run => (invocations run.trace, notifications run.trace, run.panicked))
      = some (1, [], some (.ofError (.boundsError 0 0))) := by
  refine ⟨rfl, rfl, rfl, fun _ => ⟨_, rfl⟩, rfl⟩

end retry
